import Mathlib

/-!
Shallow embedding of the LuxeLens jewelry-studio application: the retry
helper and prompt pipeline of the Gemini service module, the scenario
generation pipeline of the App component, and the IndexedDB persistence
wrapper (projects store and settings store).
-/

namespace LuxeLens

/-! Data model, from the repository's type declarations (types.ts). -/

/-- App states of the top-level UI state machine. -/
inductive AppState where
  | API_KEY_SELECTION
  | UPLOAD
  | ANALYZING
  | GENERATING
  | RESULTS
  | HISTORY
  deriving DecidableEq, Repr

/-- Status of a generated image record. -/
inductive ImageStatus where
  | pending
  | completed
  | failed
  deriving DecidableEq, Repr

/-- A generated-image record: id, url, scenario label, status. -/
structure GeneratedImage where
  id : String
  url : String
  scenario : String
  status : ImageStatus
  deriving DecidableEq, Repr

/-- Analysis result returned by the jewelry classifier. -/
structure JewelryAnalysis where
  category : String
  style : String
  description : String
  recommendedAttire : String
  deriving DecidableEq, Repr

/-- A persisted project record. The logo may be absent at runtime, so it is
modelled as optional, as is the size string. -/
structure Project where
  id : String
  timestamp : Nat
  jewelryFile : String
  logoFile : Option String
  jewelrySize : Option String
  analysis : JewelryAnalysis
  images : List GeneratedImage
  deriving DecidableEq, Repr

/-! Retry helper of the Gemini service module. A thrown JavaScript error is
modelled by its fields inspected by the code: status, code, message. -/

/-- A JavaScript error value as inspected by the retry helper. -/
structure JsError where
  status : Option Nat
  code : Option Nat
  message : Option String
  deriving DecidableEq, Repr

/-- Character-list test that needle occurs as a prefix of haystack. -/
def prefixMatches : List Char → List Char → Bool
  | [], _ => true
  | _ :: _, [] => false
  | a :: as, b :: bs => a == b && prefixMatches as bs

/-- Character-list test that needle occurs as a contiguous substring. -/
def containsSub (needle : List Char) : List Char → Bool
  | [] => needle.isEmpty
  | b :: bs => prefixMatches needle (b :: bs) || containsSub needle bs

/-- Substring containment on strings, modelling the includes method. -/
def strContains (s sub : String) : Bool :=
  containsSub sub.data s.data

/-- Rate-limit test of the retry helper: status 429, code 429, or a message
containing 429 or RESOURCE_EXHAUSTED. A missing message short-circuits to
false, as optional chaining does. -/
def isQuotaError (e : JsError) : Bool :=
  e.status == some 429 || e.code == some 429 ||
    (match e.message with
     | some m => strContains m "429" || strContains m "RESOURCE_EXHAUSTED"
     | none => false)

/-- Outcome of one invocation of the wrapped operation: a value or a thrown
error. The operation is modelled as a function from the attempt index. -/
inductive Outcome (α : Type) where
  | ok (v : α)
  | err (e : JsError)
  deriving DecidableEq, Repr

/-- The error thrown after the loop when every iteration retried. -/
def maxRetriesError : JsError :=
  { status := none, code := none, message := some "Max retries exceeded" }

/-- Observable behaviour of one run of the retry helper: the returned value
or rethrown error, the number of invocations of the wrapped operation, and
the list of backoff delays slept between consecutive attempts. -/
structure RetryResult (α : Type) where
  result : Except JsError α
  attempts : Nat
  delays : List Nat
  deriving Repr

/-- Loop body of retryWithBackoff. The index i counts attempts from 0; fuel
is the number of loop iterations left, so that fuel = retries - i. On a
quota error with i below retries - 1 the loop sleeps
initialDelay * 2 ^ i + jitter i and continues; any other error is rethrown
at once. -/
def retryLoop {α : Type} (o : Nat → Outcome α) (jitter : Nat → Nat)
    (retries initialDelay : Nat) : Nat → Nat → RetryResult α
  | _, 0 => { result := .error maxRetriesError, attempts := 0, delays := [] }
  | i, fuel + 1 =>
    match o i with
    | .ok v => { result := .ok v, attempts := 1, delays := [] }
    | .err e =>
      if isQuotaError e && decide (i < retries - 1) then
        let rest := retryLoop o jitter retries initialDelay (i + 1) fuel
        { result := rest.result
          attempts := 1 + rest.attempts
          delays := (initialDelay * 2 ^ i + jitter i) :: rest.delays }
      else
        { result := .error e, attempts := 1, delays := [] }

/-- retryWithBackoff from the Gemini service module, with the random jitter
of each attempt supplied as an input function. Defaults in the source are
retries = 5 and initialDelay = 4000. -/
def retryWithBackoff {α : Type} (o : Nat → Outcome α) (jitter : Nat → Nat)
    (retries initialDelay : Nat) : RetryResult α :=
  retryLoop o jitter retries initialDelay 0 retries

/-- An operation that fails with a plain 429 status on every attempt. -/
def alwaysQuota : Nat → Outcome Unit :=
  fun _ => .err { status := some 429, code := none, message := none }

/-- Jitter input that is identically zero. -/
def zeroJitter : Nat → Nat := fun _ => 0

/-- An operation that quota-fails once and then throws an unrelated error. -/
def oMix : Nat → Outcome Unit := fun n =>
  if n = 0 then .err { status := some 429, code := none, message := none }
  else .err { status := none, code := none, message := some "boom" }

/-- The unrelated error thrown by oMix from the second attempt on. -/
def boomError : JsError := { status := none, code := none, message := some "boom" }

/-! Equation lemmas for the retry loop. -/

/-- The loop returns at once when the operation succeeds. -/
theorem retryLoop_succ_ok {α : Type} (o : Nat → Outcome α) (jitter : Nat → Nat)
    (r d i fuel : Nat) (v : α) (h : o i = .ok v) :
    retryLoop o jitter r d i (fuel + 1) =
      { result := .ok v, attempts := 1, delays := [] } := by
  simp [retryLoop, h]

/-- The loop sleeps and continues on a quota error before the last attempt. -/
theorem retryLoop_succ_retry {α : Type} (o : Nat → Outcome α) (jitter : Nat → Nat)
    (r d i fuel : Nat) (e : JsError) (h : o i = .err e)
    (hc : (isQuotaError e && decide (i < r - 1)) = true) :
    retryLoop o jitter r d i (fuel + 1) =
      { result := (retryLoop o jitter r d (i + 1) fuel).result
        attempts := 1 + (retryLoop o jitter r d (i + 1) fuel).attempts
        delays := (d * 2 ^ i + jitter i) :: (retryLoop o jitter r d (i + 1) fuel).delays } := by
  simp [retryLoop, h, hc]

/-- The loop rethrows at once when the error is not a quota error or the
attempt was the last one. -/
theorem retryLoop_succ_throw {α : Type} (o : Nat → Outcome α) (jitter : Nat → Nat)
    (r d i fuel : Nat) (e : JsError) (h : o i = .err e)
    (hc : (isQuotaError e && decide (i < r - 1)) = false) :
    retryLoop o jitter r d i (fuel + 1) =
      { result := .error e, attempts := 1, delays := [] } := by
  simp [retryLoop, h, hc]

/-- The loop never invokes the operation more often than it has fuel. -/
theorem retryLoop_attempts_le {α : Type} (o : Nat → Outcome α) (jitter : Nat → Nat)
    (r d : Nat) : ∀ fuel i, (retryLoop o jitter r d i fuel).attempts ≤ fuel := by
  intro fuel
  induction fuel with
  | zero => intro i; exact Nat.le_refl 0
  | succ f ih =>
    intro i
    cases h : o i with
    | ok v => rw [retryLoop_succ_ok o jitter r d i f v h]; exact Nat.le_add_left 1 f
    | err e =>
      cases hc : (isQuotaError e && decide (i < r - 1)) with
      | true =>
        rw [retryLoop_succ_retry o jitter r d i f e h hc]
        have := ih (i + 1)
        simp only
        omega
      | false =>
        rw [retryLoop_succ_throw o jitter r d i f e h hc]
        exact Nat.le_add_left 1 f

/-- If the first k attempts quota-fail and attempt k throws a non-quota
error, the loop rethrows that error after exactly k + 1 invocations. -/
theorem retryLoop_stop {α : Type} (o : Nat → Outcome α) (jitter : Nat → Nat) (r d : Nat) :
    ∀ fuel i k e, i + fuel = r → k < fuel →
      (∀ j, j < k → ∃ e2, o (i + j) = .err e2 ∧ isQuotaError e2 = true) →
      o (i + k) = .err e → isQuotaError e = false →
      (retryLoop o jitter r d i fuel).result = .error e ∧
      (retryLoop o jitter r d i fuel).attempts = k + 1 := by
  intro fuel
  induction fuel with
  | zero => intro i k e _ hk; exact absurd hk (Nat.not_lt_zero k)
  | succ f ih =>
    intro i k e hir hk hq he hne
    match k with
    | 0 =>
      have he0 : o i = .err e := by simpa using he
      have hc : (isQuotaError e && decide (i < r - 1)) = false := by simp [hne]
      rw [retryLoop_succ_throw o jitter r d i f e he0 hc]
      exact ⟨rfl, rfl⟩
    | k + 1 =>
      obtain ⟨e2, he2, hq2⟩ := hq 0 (Nat.succ_pos k)
      have he2i : o i = .err e2 := by simpa using he2
      have hlt : i < r - 1 := by omega
      have hc : (isQuotaError e2 && decide (i < r - 1)) = true := by
        simp [hq2, hlt]
      rw [retryLoop_succ_retry o jitter r d i f e2 he2i hc]
      have hrec := ih (i + 1) k e (by omega) (by omega)
        (fun j hj => by
          obtain ⟨e3, h3, h4⟩ := hq (j + 1) (by omega)
          refine ⟨e3, ?_, h4⟩
          rw [show i + 1 + j = i + (j + 1) by omega]
          exact h3)
        (by rw [show i + 1 + k = i + (k + 1) by omega]; exact he) hne
      simp only
      exact ⟨hrec.1, by omega⟩

/-- If every attempt quota-fails, the loop uses all of its fuel. -/
theorem retryLoop_allQuota {α : Type} (o : Nat → Outcome α) (jitter : Nat → Nat) (r d : Nat) :
    ∀ fuel i, 0 < fuel → i + fuel = r →
      (∀ j, j < fuel → ∃ e2, o (i + j) = .err e2 ∧ isQuotaError e2 = true) →
      (retryLoop o jitter r d i fuel).attempts = fuel := by
  intro fuel
  induction fuel with
  | zero => intro i h; exact absurd h (Nat.lt_irrefl 0)
  | succ f ih =>
    intro i _ hir hq
    obtain ⟨e2, he2, hq2⟩ := hq 0 (Nat.succ_pos f)
    have he2i : o i = .err e2 := by simpa using he2
    by_cases hf : f = 0
    · subst hf
      have hni : ¬ (i < r - 1) := by omega
      have hc : (isQuotaError e2 && decide (i < r - 1)) = false := by simp [hni]
      rw [retryLoop_succ_throw o jitter r d i 0 e2 he2i hc]
    · have hlt : i < r - 1 := by omega
      have hc : (isQuotaError e2 && decide (i < r - 1)) = true := by simp [hq2, hlt]
      rw [retryLoop_succ_retry o jitter r d i f e2 he2i hc]
      have hrec := ih (i + 1) (Nat.pos_of_ne_zero hf) (by omega)
        (fun j hj => by
          obtain ⟨e3, h3, h4⟩ := hq (j + 1) (by omega)
          refine ⟨e3, ?_, h4⟩
          rw [show i + 1 + j = i + (j + 1) by omega]
          exact h3)
      simp only
      omega

/-- C1, counterexample. At the concrete run where every attempt fails with
status 429 and jitter is zero, the backoff delays of retryWithBackoff are
4000, 8000, 16000, 32000: they do not grow linearly with the attempt
index, refuting the claimed linear backoff. -/
theorem C1_counterexample :
    (retryWithBackoff alwaysQuota zeroJitter 5 4000).delays = [4000, 8000, 16000, 32000] ∧
    ¬ ∃ a b : Nat, ∀ k : Nat, k < 4 →
        (retryWithBackoff alwaysQuota zeroJitter 5 4000).delays.getD k 0 = a + b * k := by
  refine ⟨by decide, ?_⟩
  rintro ⟨a, b, h⟩
  have h0 := h 0 (by decide)
  have h1 := h 1 (by decide)
  have h2 := h 2 (by decide)
  have e0 : (retryWithBackoff alwaysQuota zeroJitter 5 4000).delays.getD 0 0 = 4000 := by decide
  have e1 : (retryWithBackoff alwaysQuota zeroJitter 5 4000).delays.getD 1 0 = 8000 := by decide
  have e2 : (retryWithBackoff alwaysQuota zeroJitter 5 4000).delays.getD 2 0 = 16000 := by decide
  rw [e0] at h0
  rw [e1] at h1
  rw [e2] at h2
  omega

/-- C1, amended. The backoff delay before the (k + 1)-th retry grows
exponentially with the attempt index: with the random jitter treated as an
input, the k-th delay of a fully quota-failing run is
initialDelay * 2 ^ k + jitter k, doubling (in its deterministic part) with
each attempt rather than growing linearly. -/
theorem C1_exponential_backoff (jitter : Nat → Nat) (initialDelay : Nat)
    (k : Nat) (hk : k < 4) :
    (retryWithBackoff alwaysQuota jitter 5 initialDelay).delays.getD k 0 =
      initialDelay * 2 ^ k + jitter k := by
  have e : (retryWithBackoff alwaysQuota jitter 5 initialDelay).delays =
      [initialDelay * 2 ^ 0 + jitter 0, initialDelay * 2 ^ 1 + jitter 1,
       initialDelay * 2 ^ 2 + jitter 2, initialDelay * 2 ^ 3 + jitter 3] := rfl
  rw [e]
  interval_cases k <;> rfl

/-- Witness for C1 at a concrete jitter and delay. -/
theorem C1_exponential_backoff_witness :
    (retryWithBackoff alwaysQuota (fun _ => 7) 5 4000).delays.getD 2 0 = 4000 * 2 ^ 2 + 7 :=
  C1_exponential_backoff (fun _ => 7) 4000 2 (by decide)

/-- C2. With the default of 5 retries, retryWithBackoff invokes the wrapped
operation at most 5 times; if the first k attempts quota-fail and attempt k
throws a non-quota error, that error is rethrown at once after exactly
k + 1 invocations; and if every attempt quota-fails, all 5 invocations
happen. -/
theorem C2_retry_policy {α : Type} (o : Nat → Outcome α) (jitter : Nat → Nat) (d : Nat) :
    (retryWithBackoff o jitter 5 d).attempts ≤ 5 ∧
    (∀ k e, k < 5 →
      (∀ j, j < k → ∃ e2, o j = .err e2 ∧ isQuotaError e2 = true) →
      o k = .err e → isQuotaError e = false →
      (retryWithBackoff o jitter 5 d).result = .error e ∧
      (retryWithBackoff o jitter 5 d).attempts = k + 1) ∧
    ((∀ j, j < 5 → ∃ e2, o j = .err e2 ∧ isQuotaError e2 = true) →
      (retryWithBackoff o jitter 5 d).attempts = 5) := by
  refine ⟨retryLoop_attempts_le o jitter 5 d 5 0, ?_, ?_⟩
  · intro k e hk hq he hne
    exact retryLoop_stop o jitter 5 d 5 0 k e (by omega) hk
      (fun j hj => by simpa using hq j hj) (by simpa using he) hne
  · intro hq
    exact retryLoop_allQuota o jitter 5 d 5 0 (by omega) (by omega)
      (fun j hj => by simpa using hq j hj)

/-- Witness for C2: one quota failure, then an unrelated error, which is
rethrown after exactly two invocations. -/
theorem C2_retry_policy_witness :
    (retryWithBackoff oMix zeroJitter 5 100).attempts ≤ 5 ∧
    ((retryWithBackoff oMix zeroJitter 5 100).result = .error boomError ∧
      (retryWithBackoff oMix zeroJitter 5 100).attempts = 1 + 1) := by
  refine ⟨(C2_retry_policy oMix zeroJitter 100).1, ?_⟩
  refine (C2_retry_policy oMix zeroJitter 100).2.1 1 boomError (by decide) ?_ (by decide) (by decide)
  intro j hj
  have hj0 : j = 0 := by omega
  subst hj0
  exact ⟨{ status := some 429, code := none, message := none }, rfl, rfl⟩

/-! Scenario generation pipeline of the App component. -/

/-- The six scenario labels created by startGeneration. -/
def scenarios : List String :=
  ["Black Satin Background", "White Satin Background", "Top View",
   "Front View", "Side View", "Model Shot"]

/-- Placeholder construction of startGeneration: one pending record with an
empty url per scenario. The random id of each record is supplied by the
input function ids, indexed by position. -/
def mkPlaceholders (ids : Nat → String) : Nat → List String → List GeneratedImage
  | _, [] => []
  | i, s :: rest =>
    { id := ids i, url := "", scenario := s, status := .pending } ::
      mkPlaceholders ids (i + 1) rest

/-- The six placeholders created by startGeneration after a successful
analysis, before any generation request completes. -/
def initialImages (ids : Nat → String) : List GeneratedImage :=
  mkPlaceholders ids 0 scenarios

/-- Per-item completion of generateAllScenarios: a successful generation
yields the url with status completed; a thrown error (after retries) marks
the item failed, leaving its other fields unchanged. -/
def runScenario (outcome : Option String) (item : GeneratedImage) : GeneratedImage :=
  match outcome with
  | some url => { item with url := url, status := .completed }
  | none => { item with status := .failed }

/-- Observable behaviour of one staggered scenario request: the artificial
delay awaited before the request starts, and the resulting record. -/
structure ScenarioTask where
  delayMs : Nat
  result : GeneratedImage
  deriving DecidableEq, Repr

/-- Body of generateAllScenarios: the item at position i awaits i * 2000
milliseconds, then resolves to its completed or failed record. The outcome
function gives the url produced for index i, or none when generation threw. -/
def scenarioTasks (o : Nat → Option String) : Nat → List GeneratedImage → List ScenarioTask
  | _, [] => []
  | i, item :: rest =>
    { delayMs := i * 2000, result := runScenario (o i) item } ::
      scenarioTasks o (i + 1) rest

/-- generateAllScenarios of the App component, as the list of staggered
tasks over the placeholder list. -/
def generateAllScenarios (o : Nat → Option String)
    (placeholders : List GeneratedImage) : List ScenarioTask :=
  scenarioTasks o 0 placeholders

/-- The awaited results of the whole batch, in placeholder order. -/
def generationResults (o : Nat → Option String)
    (placeholders : List GeneratedImage) : List GeneratedImage :=
  (generateAllScenarios o placeholders).map (fun t => t.result)

/-- The project record auto-saved at the end of generateAllScenarios. -/
def autoSavedProject (newId : String) (ts : Nat) (jFile : String) (lFile : Option String)
    (size : Option String) (a : JewelryAnalysis) (o : Nat → Option String)
    (placeholders : List GeneratedImage) : Project :=
  { id := newId, timestamp := ts, jewelryFile := jFile, logoFile := lFile,
    jewelrySize := size, analysis := a, images := generationResults o placeholders }

/-- Default record used with getD when indexing result lists. -/
def dfltImg : GeneratedImage := { id := "", url := "", scenario := "", status := .pending }

/-- Outcome function where only the request at index 5 fails. -/
def oW5 : Nat → Option String := fun n => if n = 5 then none else some "u"

/-- The delay column of the staggered tasks starting at index i. -/
theorem scenarioTasks_map_delay (o : Nat → Option String) :
    ∀ (p : List GeneratedImage) (i : Nat),
      (scenarioTasks o i p).map (fun t => t.delayMs) =
        (List.range p.length).map (fun k => (i + k) * 2000) := by
  intro p
  induction p with
  | nil => intro i; rfl
  | cons hd tl ih =>
    intro i
    show (i * 2000) :: (scenarioTasks o (i + 1) tl).map (fun t => t.delayMs) = _
    rw [List.length_cons, List.range_succ_eq_map, List.map_cons, List.map_map, ih (i + 1)]
    refine congrArg₂ List.cons (by omega) ?_
    refine List.map_congr_left fun k _ => ?_
    show (i + 1 + k) * 2000 = (i + (k + 1)) * 2000
    omega

/-- The batch has one task per placeholder. -/
theorem scenarioTasks_length (o : Nat → Option String) :
    ∀ (p : List GeneratedImage) (i : Nat), (scenarioTasks o i p).length = p.length := by
  intro p
  induction p with
  | nil => intro i; rfl
  | cons hd tl ih => intro i; simp [scenarioTasks, ih]

/-- Indexing the results of the staggered tasks starting at index i. -/
theorem scenarioTasks_result_getElem? (o : Nat → Option String) :
    ∀ (p : List GeneratedImage) (i j : Nat),
      ((scenarioTasks o i p).map (fun t => t.result))[j]? =
        (p[j]?).map (fun item => runScenario (o (i + j)) item) := by
  intro p
  induction p with
  | nil => intro i j; simp [scenarioTasks]
  | cons hd tl ih =>
    intro i j
    cases j with
    | zero => simp [scenarioTasks]
    | succ j =>
      simp only [scenarioTasks, List.map_cons, List.getElem?_cons_succ]
      rw [ih (i + 1) j, show i + 1 + j = i + (j + 1) by omega]

/-- The j-th result of the batch is the j-th placeholder run on outcome j. -/
theorem generationResults_getD (o : Nat → Option String) (p : List GeneratedImage)
    (j : Nat) (hj : j < p.length) :
    (generationResults o p).getD j dfltImg = runScenario (o j) (p.getD j dfltImg) := by
  have h := scenarioTasks_result_getElem? o p 0 j
  rw [generationResults, generateAllScenarios, List.getD_eq_getElem?_getD, h,
    List.getElem?_eq_getElem hj]
  rw [List.getD_eq_getElem?_getD, List.getElem?_eq_getElem hj]
  simp

/-- C3. In generateAllScenarios the artificial delay awaited before the
i-th request is exactly i * 2000 milliseconds, so consecutive request start
times are staggered by a fixed 2000 milliseconds. -/
theorem C3_stagger (o : Nat → Option String) (p : List GeneratedImage) :
    (generateAllScenarios o p).map (fun t => t.delayMs) =
      (List.range p.length).map (fun i => i * 2000) ∧
    ∀ i, i + 1 < p.length →
      ((generateAllScenarios o p).map (fun t => t.delayMs)).getD (i + 1) 0 =
        ((generateAllScenarios o p).map (fun t => t.delayMs)).getD i 0 + 2000 := by
  have h0 : (generateAllScenarios o p).map (fun t => t.delayMs) =
      (List.range p.length).map (fun i => i * 2000) := by
    rw [generateAllScenarios, scenarioTasks_map_delay o p 0]
    exact List.map_congr_left fun k _ => by omega
  refine ⟨h0, ?_⟩
  intro i hi
  rw [h0]
  have g1 : ((List.range p.length).map (fun i => i * 2000)).getD (i + 1) 0 = (i + 1) * 2000 := by
    rw [List.getD_eq_getElem?_getD, List.getElem?_map, List.getElem?_range hi]
    rfl
  have g2 : ((List.range p.length).map (fun i => i * 2000)).getD i 0 = i * 2000 := by
    rw [List.getD_eq_getElem?_getD, List.getElem?_map, List.getElem?_range (by omega)]
    rfl
  rw [g1, g2]
  omega

/-- Witness for C3 at a concrete placeholder list and index. -/
theorem C3_stagger_witness :
    ((generateAllScenarios oW5 (initialImages (fun _ => "x"))).map (fun t => t.delayMs)).getD 3 0 =
      ((generateAllScenarios oW5 (initialImages (fun _ => "x"))).map (fun t => t.delayMs)).getD 2 0
        + 2000 :=
  (C3_stagger oW5 (initialImages (fun _ => "x"))).2 2 (by decide)

/-- C4. After a successful analysis, startGeneration creates exactly six
placeholders, one per scenario label in order, each pending with an empty
url, whatever ids the random generator yields. -/
theorem C4_six_placeholders (ids : Nat → String) :
    (initialImages ids).length = 6 ∧
    (initialImages ids).map (fun img => img.scenario) =
      ["Black Satin Background", "White Satin Background", "Top View",
       "Front View", "Side View", "Model Shot"] ∧
    (initialImages ids).all
      (fun img => img.status == ImageStatus.pending && img.url == "") = true :=
  ⟨rfl, rfl, rfl⟩

/-- C5. When exactly the k-th scenario throws and the others succeed, the
awaited batch still resolves with one record per placeholder; only the k-th
record is failed, keeping its id and url; every other record is completed
with its id preserved; and the auto-saved project stores exactly these
results, failed item included. -/
theorem C5_partial_failure (o : Nat → Option String) (p : List GeneratedImage)
    (nid : String) (ts : Nat) (jf : String) (lf : Option String) (sz : Option String)
    (an : JewelryAnalysis) (k : Nat) (hk : k < p.length) (hfail : o k = none)
    (hok : ∀ j, j < p.length → j ≠ k → ∃ u, o j = some u) :
    (generationResults o p).length = p.length ∧
    ((generationResults o p).getD k dfltImg).status = ImageStatus.failed ∧
    ((generationResults o p).getD k dfltImg).id = (p.getD k dfltImg).id ∧
    ((generationResults o p).getD k dfltImg).url = (p.getD k dfltImg).url ∧
    (∀ j, j < p.length → j ≠ k →
      ((generationResults o p).getD j dfltImg).status = ImageStatus.completed ∧
      ((generationResults o p).getD j dfltImg).id = (p.getD j dfltImg).id) ∧
    (autoSavedProject nid ts jf lf sz an o p).images = generationResults o p := by
  have hlen : (generationResults o p).length = p.length := by
    rw [generationResults, List.length_map, generateAllScenarios]
    exact scenarioTasks_length o p 0
  refine ⟨hlen, ?_, ?_, ?_, ?_, rfl⟩
  · rw [generationResults_getD o p k hk, hfail]; rfl
  · rw [generationResults_getD o p k hk, hfail]; rfl
  · rw [generationResults_getD o p k hk, hfail]; rfl
  · intro j hj hne
    obtain ⟨u, hu⟩ := hok j hj hne
    rw [generationResults_getD o p j hj, hu]
    exact ⟨rfl, rfl⟩

/-- Witness for C5: six placeholders where only the last request fails. -/
theorem C5_partial_failure_witness :
    (generationResults oW5 (initialImages (fun _ => "x"))).length =
      (initialImages (fun _ => "x")).length ∧
    ((generationResults oW5 (initialImages (fun _ => "x"))).getD 5 dfltImg).status =
      ImageStatus.failed ∧
    ((generationResults oW5 (initialImages (fun _ => "x"))).getD 5 dfltImg).id =
      ((initialImages (fun _ => "x")).getD 5 dfltImg).id ∧
    ((generationResults oW5 (initialImages (fun _ => "x"))).getD 5 dfltImg).url =
      ((initialImages (fun _ => "x")).getD 5 dfltImg).url ∧
    (∀ j, j < (initialImages (fun _ => "x")).length → j ≠ 5 →
      ((generationResults oW5 (initialImages (fun _ => "x"))).getD j dfltImg).status =
        ImageStatus.completed ∧
      ((generationResults oW5 (initialImages (fun _ => "x"))).getD j dfltImg).id =
        ((initialImages (fun _ => "x")).getD j dfltImg).id) ∧
    (autoSavedProject "p1" 0 "j" none none
        { category := "Ring", style := "Minimalist", description := "d",
          recommendedAttire := "Western Formal" }
        oW5 (initialImages (fun _ => "x"))).images =
      generationResults oW5 (initialImages (fun _ => "x")) :=
  C5_partial_failure oW5 (initialImages (fun _ => "x")) "p1" 0 "j" none none
    { category := "Ring", style := "Minimalist", description := "d",
      recommendedAttire := "Western Formal" }
    5 (by decide) rfl (fun j hj hne => ⟨"u", if_neg hne⟩)

/-! Persistence wrapper: the projects object store has keyPath id, so a put
inserts a new record or replaces the record with the same id. The store is
modelled as a list of records; enumeration order is irrelevant to the
proved properties, which are order-independent or go through a sort. -/

/-- saveProjectToHistory: put on the projects store, replacing the record
with the same id if present and appending otherwise. -/
def saveProjectToHistory (s : List Project) (p : Project) : List Project :=
  if s.any (fun q => q.id == p.id) then
    s.map (fun q => if q.id == p.id then p else q)
  else
    s ++ [p]

/-- deleteProjectFromHistory: delete on the projects store by id. -/
def deleteProjectFromHistory (s : List Project) (i : String) : List Project :=
  s.filter (fun q => q.id != i)

/-- Comparator of getProjectHistory: newest first, sorting by descending
timestamp. -/
def byNewest (a b : Project) : Prop := b.timestamp ≤ a.timestamp

instance : DecidableRel byNewest := fun a b => Nat.decLe b.timestamp a.timestamp

instance : IsTotal Project byNewest := ⟨fun a b => Nat.le_total b.timestamp a.timestamp⟩

instance : IsTrans Project byNewest := ⟨fun _ _ _ hab hbc => Nat.le_trans hbc hab⟩

/-- getProjectHistory: getAll on the projects store followed by the
stable in-place sort with comparator newest first. -/
def getProjectHistory (s : List Project) : List Project :=
  List.insertionSort byNewest s

/-- One client operation against the projects store. -/
inductive StoreOp where
  | save (p : Project)
  | del (i : String)
  deriving DecidableEq, Repr

/-- Effect of one operation on the store contents. -/
def applyOp (s : List Project) : StoreOp → List Project
  | .save p => saveProjectToHistory s p
  | .del i => deleteProjectFromHistory s i

/-- The store contents after a sequence of operations from an empty store. -/
def runOps (ops : List StoreOp) : List Project := ops.foldl applyOp []

/-- Test that an operation addresses the record with the given id. -/
def opTouches (op : StoreOp) (i : String) : Bool :=
  match op with
  | .save q => q.id == i
  | .del j => j == i

/-- Putting a record whose id is already present leaves the id column of
the store unchanged. -/
theorem save_map_id_of_any (s : List Project) (p : Project)
    (h : s.any (fun q => q.id == p.id) = true) :
    (saveProjectToHistory s p).map (fun q => q.id) = s.map (fun q => q.id) := by
  rw [saveProjectToHistory, if_pos h, List.map_map]
  refine List.map_congr_left fun q _ => ?_
  show (if q.id == p.id then p else q).id = q.id
  by_cases hq : (q.id == p.id) = true
  · rw [if_pos hq]
    exact (eq_of_beq hq).symm
  · rw [if_neg hq]

/-- If no record of the store matches the id, every stored id differs. -/
theorem any_eq_false_forall {s : List Project} {p : Project}
    (h : s.any (fun q => q.id == p.id) = false) : ∀ q ∈ s, q.id ≠ p.id := by
  intro q hq
  have hall := List.any_eq_false.mp h q hq
  simpa using hall

/-- Put preserves distinctness of the stored ids. -/
theorem save_nodup (s : List Project) (p : Project)
    (h : (s.map (fun q => q.id)).Nodup) :
    ((saveProjectToHistory s p).map (fun q => q.id)).Nodup := by
  cases hany : s.any (fun q => q.id == p.id) with
  | true =>
    rw [save_map_id_of_any s p hany]
    exact h
  | false =>
    rw [saveProjectToHistory, if_neg (by simp [hany]), List.map_append, List.nodup_append]
    refine ⟨h, List.nodup_singleton _, ?_⟩
    intro a ha hb
    obtain ⟨q, hq, rfl⟩ := List.mem_map.mp ha
    have hqe : q.id = p.id := by simpa using hb
    exact any_eq_false_forall hany q hq hqe

/-- Delete preserves distinctness of the stored ids. -/
theorem del_nodup (s : List Project) (i : String)
    (h : (s.map (fun q => q.id)).Nodup) :
    ((deleteProjectFromHistory s i).map (fun q => q.id)).Nodup := by
  have hsub : List.Sublist ((deleteProjectFromHistory s i).map (fun q => q.id))
      (s.map (fun q => q.id)) :=
    (List.filter_sublist s).map _
  exact List.Nodup.sublist hsub h

/-- Distinctness of stored ids is an invariant of every operation sequence. -/
theorem foldl_nodup : ∀ (ops : List StoreOp) (s : List Project),
    (s.map (fun q => q.id)).Nodup → ((ops.foldl applyOp s).map (fun q => q.id)).Nodup := by
  intro ops
  induction ops with
  | nil => intro s h; exact h
  | cons op rest ih =>
    intro s h
    cases op with
    | save p => exact ih _ (save_nodup s p h)
    | del i => exact ih _ (del_nodup s i h)

/-- The returned history is a permutation of the store contents. -/
theorem history_perm (s : List Project) : List.Perm (getProjectHistory s) s :=
  List.perm_insertionSort byNewest s

/-- Membership in the returned history is membership in the store. -/
theorem mem_history {p : Project} {s : List Project} : p ∈ getProjectHistory s ↔ p ∈ s :=
  (history_perm s).mem_iff

/-- A put record is a member of the resulting store. -/
theorem mem_save_self (s : List Project) (p : Project) : p ∈ saveProjectToHistory s p := by
  rw [saveProjectToHistory]
  by_cases hany : s.any (fun q => q.id == p.id) = true
  · rw [if_pos hany]
    obtain ⟨q, hq, hbeq⟩ := List.any_eq_true.mp hany
    refine List.mem_map.mpr ⟨q, hq, ?_⟩
    have hb2 : (q.id == p.id) = true := hbeq
    rw [if_pos hb2]
  · rw [if_neg hany]
    exact List.mem_append_right s (List.mem_singleton_self p)

/-- Putting a record with a different id keeps a stored record. -/
theorem mem_save_of_ne {s : List Project} {p q : Project}
    (hp : p ∈ s) (hne : q.id ≠ p.id) : p ∈ saveProjectToHistory s q := by
  rw [saveProjectToHistory]
  by_cases hany : s.any (fun x => x.id == q.id) = true
  · rw [if_pos hany]
    refine List.mem_map.mpr ⟨p, hp, ?_⟩
    have hf : (p.id == q.id) = false := beq_eq_false_iff_ne.mpr fun h => hne h.symm
    rw [if_neg (by simp [hf])]
  · rw [if_neg hany]
    exact List.mem_append_left _ hp

/-- Deleting a different id keeps a stored record. -/
theorem mem_del_of_ne {s : List Project} {p : Project} {i : String}
    (hp : p ∈ s) (hne : p.id ≠ i) : p ∈ deleteProjectFromHistory s i := by
  rw [deleteProjectFromHistory]
  exact List.mem_filter.mpr ⟨hp, by simp [hne]⟩

/-- A stored record survives every sequence of operations that never
addresses its id. -/
theorem mem_foldl_of_untouched (p : Project) : ∀ (ops : List StoreOp) (s : List Project),
    p ∈ s → (∀ op ∈ ops, opTouches op p.id = false) →
    p ∈ ops.foldl applyOp s := by
  intro ops
  induction ops with
  | nil => intro s hp _; exact hp
  | cons op rest ih =>
    intro s hp hops
    have h1 := hops op (List.mem_cons_self op rest)
    refine ih (applyOp s op) ?_ fun o ho => hops o (List.mem_cons_of_mem op ho)
    cases op with
    | save q =>
      have : q.id ≠ p.id := by simpa [opTouches] using h1
      exact mem_save_of_ne hp this
    | del i =>
      have : i ≠ p.id := by simpa [opTouches] using h1
      exact mem_del_of_ne hp (Ne.symm this)

/-- C6. Starting from an empty store, every sequence of save and delete
operations leaves at most one record per id, both in the store and in the
list returned by getProjectHistory; and a save whose id is already present
replaces the record, leaving the record count unchanged. -/
theorem C6_unique_project_ids (ops : List StoreOp) (p : Project) :
    ((runOps ops).map (fun q => q.id)).Nodup ∧
    ((getProjectHistory (runOps ops)).map (fun q => q.id)).Nodup ∧
    ((runOps ops).any (fun q => q.id == p.id) = true →
      (saveProjectToHistory (runOps ops) p).length = (runOps ops).length) := by
  have h1 : ((runOps ops).map (fun q => q.id)).Nodup := foldl_nodup ops [] (by simp)
  refine ⟨h1, ?_, ?_⟩
  · have hperm : List.Perm ((getProjectHistory (runOps ops)).map (fun q => q.id))
        ((runOps ops).map (fun q => q.id)) := (history_perm _).map _
    exact hperm.nodup_iff.mpr h1
  · intro hany
    have hl := congrArg List.length (save_map_id_of_any (runOps ops) p hany)
    simpa using hl

/-- Analysis value used in concrete store witnesses. -/
def anW : JewelryAnalysis :=
  { category := "Ring", style := "Minimalist", description := "d",
    recommendedAttire := "Western Formal" }

/-- A first concrete project record. -/
def pA : Project :=
  { id := "a", timestamp := 1, jewelryFile := "jw", logoFile := none,
    jewelrySize := none, analysis := anW, images := [] }

/-- A second record with the same id and a newer timestamp. -/
def pA2 : Project := { pA with timestamp := 2 }

/-- A record with a different id. -/
def pB : Project := { pA with id := "b", timestamp := 3 }

/-- Operation sequence saving the same id twice. -/
def opsW : List StoreOp := [.save pA, .save pA2]

/-- Witness for C6 on a store where the id a was saved twice. -/
theorem C6_unique_project_ids_witness :
    ((runOps opsW).map (fun q => q.id)).Nodup ∧
    ((getProjectHistory (runOps opsW)).map (fun q => q.id)).Nodup ∧
    (saveProjectToHistory (runOps opsW) pA).length = (runOps opsW).length := by
  obtain ⟨h1, h2, h3⟩ := C6_unique_project_ids opsW pA
  exact ⟨h1, h2, h3 (by decide)⟩

/-- C7. A saved project is returned by getProjectHistory immediately after
the save, and it is still returned after any further operations none of
which saves over its id or deletes its id. -/
theorem C7_save_roundtrip (s : List Project) (p : Project) (ops : List StoreOp)
    (hops : ∀ op ∈ ops, opTouches op p.id = false) :
    p ∈ getProjectHistory (saveProjectToHistory s p) ∧
    p ∈ getProjectHistory (ops.foldl applyOp (saveProjectToHistory s p)) :=
  ⟨mem_history.mpr (mem_save_self s p),
   mem_history.mpr (mem_foldl_of_untouched p ops _ (mem_save_self s p) hops)⟩

/-- Operations not touching id a: a save of id b and a delete of id c. -/
def opsW7 : List StoreOp := [.save pB, .del "c"]

/-- Witness for C7 with an unrelated save and delete after the save. -/
theorem C7_save_roundtrip_witness :
    pA ∈ getProjectHistory (saveProjectToHistory [] pA) ∧
    pA ∈ getProjectHistory (opsW7.foldl applyOp (saveProjectToHistory [] pA)) :=
  C7_save_roundtrip [] pA opsW7 (by decide)

/-- C9. For every store contents, getProjectHistory returns a permutation
of the stored projects that is sorted by timestamp in descending order. -/
theorem C9_history_sorted (s : List Project) :
    (getProjectHistory s).Pairwise (fun a b => b.timestamp ≤ a.timestamp) ∧
    List.Perm (getProjectHistory s) s :=
  ⟨List.sorted_insertionSort byNewest s, List.perm_insertionSort byNewest s⟩

/-! Settings store: a single value under the key user_logo. The stored
value, when present, is modelled by some. -/

/-- savePreferredLogo: put of the string under the key user_logo. -/
def savePreferredLogo (_s : Option String) (b : String) : Option String :=
  some b

/-- getPreferredLogo: get of the key user_logo; the source coalesces the
result with null through the or-else operator, so an absent key and a
stored falsy value, that is the empty string, both yield null. -/
def getPreferredLogo (s : Option String) : Option String :=
  match s with
  | none => none
  | some v => if v = "" then none else some v

/-- C8, counterexample. Saving the empty string and reading back yields
null, not the saved string: the or-else coalescing in getPreferredLogo
maps the falsy empty string to null. -/
theorem C8_counterexample :
    getPreferredLogo (savePreferredLogo none "") = none ∧
    getPreferredLogo (savePreferredLogo none "") ≠ some "" :=
  ⟨rfl, by decide⟩

/-- C8, amended. For every string b other than the empty string, after
savePreferredLogo b a getPreferredLogo returns b; when no logo has ever
been saved, and also when the saved value is the empty string,
getPreferredLogo returns null. -/
theorem C8_logo_roundtrip (s : Option String) (b : String) (hb : b ≠ "") :
    getPreferredLogo (savePreferredLogo s b) = some b ∧
    getPreferredLogo none = none := by
  refine ⟨?_, rfl⟩
  simp [getPreferredLogo, savePreferredLogo, hb]

/-- Witness for C8 at a non-empty logo string. -/
theorem C8_logo_roundtrip_witness :
    getPreferredLogo (savePreferredLogo none "logo64") = some "logo64" ∧
    getPreferredLogo none = none :=
  C8_logo_roundtrip none "logo64" (by decide)

/-! Top-level App state and its reset handler. -/

/-- The App component state fields touched or skipped by reset. -/
structure AppModel where
  appState : AppState
  jewelryFile : Option String
  logoFile : Option String
  jewelrySize : String
  analysis : Option JewelryAnalysis
  generatedImages : List GeneratedImage
  error : Option String
  projects : List Project
  currentProjectId : Option String
  deriving Repr

/-- The reset handler of the App component. -/
def reset (m : AppModel) : AppModel :=
  { m with
    appState := AppState.UPLOAD
    jewelryFile := none
    jewelrySize := ""
    currentProjectId := none
    generatedImages := []
    analysis := none }

/-- C10. Reset returns to the UPLOAD state and clears the jewelry image,
size, analysis, generated images and current project id, while leaving the
loaded logo unchanged. -/
theorem C10_reset_frame (m : AppModel) :
    (reset m).appState = AppState.UPLOAD ∧
    (reset m).jewelryFile = none ∧
    (reset m).jewelrySize = "" ∧
    (reset m).analysis = none ∧
    (reset m).generatedImages = [] ∧
    (reset m).currentProjectId = none ∧
    (reset m).logoFile = m.logoFile :=
  ⟨rfl, rfl, rfl, rfl, rfl, rfl, rfl⟩

end LuxeLens
